import Mathlib

/-!
Shallow embedding of `src/generate_csv_test_data.py`, a script that emits
three CSV snapshots (`test_data_file1.csv` .. `test_data_file3.csv`) of a
synthetic product table, each generation derived from the previous one by
random deletions, modifications and insertions.

Randomness is modelled by explicit choice structures: every call the script
makes to `random.choice`, `random.uniform`, `random.randint`,
`random.random`, `random.sample` and `random.shuffle` corresponds to a field
of a choice structure, and the guarantees of those library functions
(ranges of draws, distinctness of samples, permutation for shuffle) become
validity hypotheses on the choices.  Python floats are modelled by ℚ: every
price the script manipulates is a value rounded to 2 decimals, and in the
price range of this script (≤ 660) the float computations agree with exact
rational arithmetic at the granularity the claims refer to.
-/

namespace CsvGen

/-- Decimal digits of a natural number, fuel-indexed so that the recursion is
structural and kernel-reducible.  `digitsAux fuel n acc` prepends the decimal
digits of `n` to `acc`, provided `fuel` is large enough. -/
def digitsAux : Nat → Nat → List Char → List Char
  | 0, _, acc => acc
  | fuel + 1, n, acc =>
    if n < 10 then Nat.digitChar n :: acc
    else digitsAux fuel (n / 10) (Nat.digitChar (n % 10) :: acc)

/-- The decimal-digit string of `n`, as Python's `str(n)` produces for a
nonnegative integer: most significant digit first, no padding, `0 ↦ "0"`. -/
def digitsOf (n : Nat) : List Char := digitsAux (n + 1) n []

/-- Numeric value of a digit character (inverse of `Nat.digitChar` below 10). -/
def digitVal (c : Char) : Nat :=
  if c = '0' then 0 else if c = '1' then 1 else if c = '2' then 2
  else if c = '3' then 3 else if c = '4' then 4 else if c = '5' then 5
  else if c = '6' then 6 else if c = '7' then 7 else if c = '8' then 8
  else if c = '9' then 9 else 0

/-- Value of a digit list read in base 10. -/
def valOfDigits (l : List Char) : Nat := l.foldl (fun a c => 10 * a + digitVal c) 0

/-- Zero-padding to width `w`, as Python's `f"{n:0wd}"` format: the decimal
digits of `n`, left-padded with `'0'` up to at least `w` characters. -/
def padNum (w n : Nat) : String :=
  String.mk (List.replicate (w - (digitsOf n).length) '0' ++ digitsOf n)

/-- The `id` field of a record: Python `f"key_{n:05}"`. -/
def key (n : Nat) : String := "key_" ++ padNum 5 n

/-- Python's `round(x, 2)`: round to the nearest multiple of 1/100.
(CPython rounds float ties to the nearest representable; tie direction is
immaterial to every claim, so we use Mathlib's `round`.) -/
def round2 (q : ℚ) : ℚ := (round (q * 100) : ℤ) / 100

/-- A calendar date as the triple `datetime.date` is constructed from. -/
structure Date where
  year : Nat
  month : Nat
  day : Nat
deriving DecidableEq

/-- `datetime.date(year, month, day).isoformat()`: `YYYY-MM-DD` with the year
zero-padded to 4 digits and month/day to 2. -/
def Date.toISO (d : Date) : String :=
  padNum 4 d.year ++ "-" ++ padNum 2 d.month ++ "-" ++ padNum 2 d.day

/-- Leap-year test of the proleptic Gregorian calendar used by `datetime`. -/
def isLeap (y : Nat) : Bool := y % 4 == 0 && (y % 100 != 0 || y % 400 == 0)

/-- Number of days in a month, as `datetime.date` validates them. -/
def daysInMonth (y m : Nat) : Nat :=
  if m = 2 then (if isLeap y then 29 else 28)
  else if m = 4 ∨ m = 6 ∨ m = 9 ∨ m = 11 then 30
  else 31

/-- The precondition under which `datetime.date(y, m, d)` does not raise. -/
def ValidDate (d : Date) : Prop :=
  1 ≤ d.month ∧ d.month ≤ 12 ∧ 1 ≤ d.day ∧ d.day ≤ daysInMonth d.year d.month

instance (d : Date) : Decidable (ValidDate d) := by unfold ValidDate; infer_instance

/-- `generate_date(base_year, month_range, day_range)` from the script.
`dy`, `month` and `day` are the results of the three `random.*` draws
(`randint(0,1)`, `randint(*month_range)`, `randint(*day_range)`); their
ranges are supplied as hypotheses at each call site.  The body mirrors the
day-clamping branches of the source. -/
def generate_date (base_year dy month day : Nat) : Date :=
  let day1 := if month = 2 ∧ 28 < day then 28
              else if (month = 4 ∨ month = 6 ∨ month = 9 ∨ month = 11) ∧ 30 < day then 30
              else day
  { year := base_year + dy, month := month, day := day1 }

/-- The suffix pool of `generate_product_name`. -/
def name_suffixes : List String := ["Alpha", "Beta", "Gamma", "Delta", "Epsilon"]

/-- `generate_product_name(i)`; `c` is the index drawn by `random.choice`. -/
def generate_product_name (i c : Nat) : String :=
  "Product_" ++ String.mk (digitsOf i) ++ "_" ++ name_suffixes.getD c ""

/-- The category pool of `generate_category`. -/
def categories : List String := ["Electronics", "Books", "Clothing", "Home Goods", "Toys"]

/-- `generate_category()`; `c` is the index drawn by `random.choice`. -/
def generate_category (c : Nat) : String := categories.getD c ""

/-- `generate_price()`: `round(random.uniform(5.0, 500.0), 2)`; `u` is the
uniform draw, constrained to `[5, 500]` at call sites. -/
def generate_price (u : ℚ) : ℚ := round2 u

/-- One row of a snapshot.  The Python dict stores the id as the string
`key_{n:05}` and the date as an ISO string; we carry the numeric id and the
date triple and apply `key` / `Date.toISO` wherever the strings are used
(CSV serialization and the claims about it). -/
structure Record where
  id : Nat
  product_name : String
  category : String
  price : ℚ
  last_update_date : Date
deriving DecidableEq

instance : Inhabited Record := ⟨⟨0, "", "", 0, ⟨0, 0, 0⟩⟩⟩

/-- `RECORDS = 50000`. -/
def RECORDS : Nat := 50000

/-- `field_names`. -/
def field_names : List String := ["id", "product_name", "category", "price", "last_update_date"]

/-! ### Generation 1: `file1_data` -/

/-- The random draws consumed while building `file1_data`, indexed by the
loop variable `i`: `nameC i` / `catC i` are the `random.choice` indices,
`priceU i` the `random.uniform(5.0, 500.0)` draw, and `dateDY i` / `dateM i`
/ `dateD i` the three `randint` draws inside `generate_date(2023, (1,12))`. -/
structure Gen1C where
  nameC : Nat → Nat
  catC : Nat → Nat
  priceU : Nat → ℚ
  dateDY : Nat → Nat
  dateM : Nat → Nat
  dateD : Nat → Nat

/-- The guarantees Python's random primitives give for the generation-1 draws. -/
def Gen1Valid (c : Gen1C) : Prop :=
  ∀ i, c.nameC i < 5 ∧ c.catC i < 5 ∧
    (5 ≤ c.priceU i ∧ c.priceU i ≤ 500) ∧
    c.dateDY i ≤ 1 ∧ (1 ≤ c.dateM i ∧ c.dateM i ≤ 12) ∧ (1 ≤ c.dateD i ∧ c.dateD i ≤ 28)

/-- The row appended for index `i` in the file-1 loop. -/
def mkRecord1 (c : Gen1C) (i : Nat) : Record :=
  { id := i
    product_name := generate_product_name i (c.nameC i)
    category := generate_category (c.catC i)
    price := generate_price (c.priceU i)
    last_update_date := generate_date 2023 (c.dateDY i) (c.dateM i) (c.dateD i) }

/-- `file1_data`: one row per `i in range(RECORDS)`. -/
def file1_data (c : Gen1C) : List Record := (List.range RECORDS).map (mkRecord1 c)

/-! ### Generation 2: `file2_data` -/

/-- `int(RECORDS * 0.8)`, the size of `ids_to_keep_modify`.  (At these
constants the float product truncates to the same value as the exact
rational one.) -/
def keep2Count : Nat := ⌊(RECORDS : ℚ) * 0.8⌋₊

/-- `int(RECORDS * 0.2)`, the number of new records added to file 2. -/
def new2Count : Nat := ⌊(RECORDS : ℚ) * 0.2⌋₊

/-- The random draws consumed while building `file2_data`.
`ids_to_keep_modify` is the result of `random.sample(list(ids_file1),
int(RECORDS * 0.8))`, carried as the numeric parts of the sampled id
strings.  The per-retained-record draws are indexed by the record's id
(legitimate because the sampled ids are distinct, so each loop iteration
has its own index): `dDY/dM/dD` for `generate_date(2024, (1,6))`, `pFlip`
for `random.random() < 0.3`, `pFac` for `random.uniform(0.8, 1.2)`,
`cFlip` for `random.random() < 0.1`, `cNew` for the `generate_category`
choice.  The new-record draws are indexed by the loop variable `i`:
`nName/nCat/nPriceU` and `nDY/nM/nD` for `generate_date(2024, (7,12))`.
`shuffle` models `random.shuffle`. -/
structure Gen2C where
  ids_to_keep_modify : List Nat
  dDY : Nat → Nat
  dM : Nat → Nat
  dD : Nat → Nat
  pFlip : Nat → Bool
  pFac : Nat → ℚ
  cFlip : Nat → Bool
  cNew : Nat → Nat
  nName : Nat → Nat
  nCat : Nat → Nat
  nPriceU : Nat → ℚ
  nDY : Nat → Nat
  nM : Nat → Nat
  nD : Nat → Nat
  shuffle : List Record → List Record

/-- The guarantees of the generation-2 random primitives: `random.sample`
returns `keep2Count` distinct elements of the population, and every draw
lies in its documented range; `random.shuffle` permutes. -/
def Gen2Valid (c1 : Gen1C) (c : Gen2C) : Prop :=
  c.ids_to_keep_modify.Nodup ∧
  (∀ a ∈ c.ids_to_keep_modify, a ∈ (file1_data c1).map Record.id) ∧
  c.ids_to_keep_modify.length = keep2Count ∧
  (∀ i, c.dDY i ≤ 1 ∧ (1 ≤ c.dM i ∧ c.dM i ≤ 6) ∧ (1 ≤ c.dD i ∧ c.dD i ≤ 28) ∧
    (4/5 ≤ c.pFac i ∧ c.pFac i ≤ 6/5) ∧ c.cNew i < 5 ∧
    c.nName i < 5 ∧ c.nCat i < 5 ∧ (5 ≤ c.nPriceU i ∧ c.nPriceU i ≤ 500) ∧
    c.nDY i ≤ 1 ∧ (7 ≤ c.nM i ∧ c.nM i ≤ 12) ∧ (1 ≤ c.nD i ∧ c.nD i ≤ 28)) ∧
  (∀ xs : List Record, (c.shuffle xs).Perm xs)

/-- `next(row for row in rows if row['id'] == base_id)`: the first row of
`rows` whose id is `base_id` (the script only evaluates this when such a
row exists). -/
def lookupRow (rows : List Record) (base_id : Nat) : Record :=
  (rows.find? (fun r => r.id == base_id)).getD default

/-- The body of the file-2 retained-record loop: copy the original row,
reassign its date from the 2024 first-half window, then with probability
0.3 rescale its price by `pFac` (rounded to 2 decimals; the source's inner
inequality check only updates a counter), and with probability 0.1 redraw
its category (assigned only when it actually differs, which is
value-equivalent either way). -/
def modifyRecord2 (c : Gen2C) (r : Record) : Record :=
  let r1 := { r with last_update_date := generate_date 2024 (c.dDY r.id) (c.dM r.id) (c.dD r.id) }
  let r2 := if c.pFlip r.id then { r1 with price := round2 (r.price * c.pFac r.id) } else r1
  if c.cFlip r.id then
    (if generate_category (c.cNew r.id) ≠ r.category
     then { r2 with category := generate_category (c.cNew r.id) } else r2)
  else r2

/-- The retained/modified portion of `file2_data`, in sample order. -/
def file2_retained (c1 : Gen1C) (c : Gen2C) : List Record :=
  c.ids_to_keep_modify.map (fun base_id => modifyRecord2 c (lookupRow (file1_data c1) base_id))

/-- The new record appended for index `i` in the file-2 insertion loop:
`new_id_num = RECORDS + i`. -/
def mkNew2 (c : Gen2C) (i : Nat) : Record :=
  { id := RECORDS + i
    product_name := generate_product_name (RECORDS + i) (c.nName i)
    category := generate_category (c.nCat i)
    price := generate_price (c.nPriceU i)
    last_update_date := generate_date 2024 (c.nDY i) (c.nM i) (c.nD i) }

/-- The newly inserted portion of `file2_data`. -/
def file2_new (c : Gen2C) : List Record := (List.range new2Count).map (mkNew2 c)

/-- `file2_data` after `random.shuffle`. -/
def file2_data (c1 : Gen1C) (c : Gen2C) : List Record :=
  c.shuffle (file2_retained c1 c ++ file2_new c)

/-! ### Generation 3: `file3_data` -/

/-- The distinct ids of a snapshot (`ids_file2 = {row['id'] for row in ...}`),
as a deduplicated list. -/
def idsOf (rows : List Record) : List Nat := (rows.map Record.id).dedup

/-- `int(len(ids_file2) * 0.90)`, the size of `ids_to_keep_modify_f3`. -/
def keep3Count (rows : List Record) : Nat := ⌊((idsOf rows).length : ℚ) * 0.90⌋₊

/-- `int(RECORDS * 0.1)`, the number of new records added to file 3. -/
def new3Count : Nat := ⌊(RECORDS : ℚ) * 0.1⌋₊

/-- The random draws consumed while building `file3_data`, organised like
`Gen2C`: `ids_to_keep_modify_f3` from `random.sample`, per-retained-record
draws indexed by id (`generate_date(2025, (1,3))` dates, `random.random()
< 0.2` flip, `random.uniform(0.9, 1.1)` factor), and new-record draws
indexed by the loop variable (`generate_date(2025, (2,4))` dates). -/
structure Gen3C where
  ids_to_keep_modify_f3 : List Nat
  dDY : Nat → Nat
  dM : Nat → Nat
  dD : Nat → Nat
  pFlip : Nat → Bool
  pFac : Nat → ℚ
  nName : Nat → Nat
  nCat : Nat → Nat
  nPriceU : Nat → ℚ
  nDY : Nat → Nat
  nM : Nat → Nat
  nD : Nat → Nat
  shuffle : List Record → List Record

/-- The guarantees of the generation-3 random primitives. -/
def Gen3Valid (c1 : Gen1C) (c2 : Gen2C) (c : Gen3C) : Prop :=
  c.ids_to_keep_modify_f3.Nodup ∧
  (∀ a ∈ c.ids_to_keep_modify_f3, a ∈ (file2_data c1 c2).map Record.id) ∧
  c.ids_to_keep_modify_f3.length = keep3Count (file2_data c1 c2) ∧
  (∀ i, c.dDY i ≤ 1 ∧ (1 ≤ c.dM i ∧ c.dM i ≤ 3) ∧ (1 ≤ c.dD i ∧ c.dD i ≤ 28) ∧
    (9/10 ≤ c.pFac i ∧ c.pFac i ≤ 11/10) ∧
    c.nName i < 5 ∧ c.nCat i < 5 ∧ (5 ≤ c.nPriceU i ∧ c.nPriceU i ≤ 500) ∧
    c.nDY i ≤ 1 ∧ (2 ≤ c.nM i ∧ c.nM i ≤ 4) ∧ (1 ≤ c.nD i ∧ c.nD i ≤ 28)) ∧
  (∀ xs : List Record, (c.shuffle xs).Perm xs)

/-- The body of the file-3 retained-record loop: copy, reassign the date
from the early-2025 window, and with probability 0.2 rescale the price —
here the source assigns the new price only when it differs from the old one
(value-equivalent to assigning unconditionally). -/
def modifyRecord3 (c : Gen3C) (r : Record) : Record :=
  let r1 := { r with last_update_date := generate_date 2025 (c.dDY r.id) (c.dM r.id) (c.dD r.id) }
  if c.pFlip r.id then
    (let new_price := round2 (r.price * c.pFac r.id)
     if new_price ≠ r.price then { r1 with price := new_price } else r1)
  else r1

/-- The retained/modified portion of `file3_data`. -/
def file3_retained (c1 : Gen1C) (c2 : Gen2C) (c : Gen3C) : List Record :=
  c.ids_to_keep_modify_f3.map
    (fun base_id => modifyRecord3 c (lookupRow (file2_data c1 c2) base_id))

/-- The new record appended for index `i` in the file-3 insertion loop:
`new_id_num = RECORDS + int(RECORDS * 0.2) + i`. -/
def mkNew3 (c : Gen3C) (i : Nat) : Record :=
  { id := RECORDS + new2Count + i
    product_name := generate_product_name (RECORDS + new2Count + i) (c.nName i)
    category := generate_category (c.nCat i)
    price := generate_price (c.nPriceU i)
    last_update_date := generate_date 2025 (c.nDY i) (c.nM i) (c.nD i) }

/-- The newly inserted portion of `file3_data`. -/
def file3_new (c : Gen3C) : List Record := (List.range new3Count).map (mkNew3 c)

/-- `file3_data` after `random.shuffle`. -/
def file3_data (c1 : Gen1C) (c2 : Gen2C) (c : Gen3C) : List Record :=
  c.shuffle (file3_retained c1 c2 c ++ file3_new c)

/-! ### CSV serialization -/

/-- Python `str` of a float that is an exact multiple of 1/100 in this
script's price range: the shortest round-tripping decimal, i.e. the
cent value with trailing fractional zeros dropped (never past the first
fractional digit — `5.0`, `5.5`, `5.55`). -/
def priceStr (q : ℚ) : String :=
  let c := (⌊q * 100⌋).toNat
  let ip := String.mk (digitsOf (c / 100))
  if c % 100 = 0 then ip ++ ".0"
  else if c % 10 = 0 then ip ++ "." ++ String.mk [Nat.digitChar (c / 10 % 10)]
  else ip ++ "." ++ String.mk [Nat.digitChar (c / 10 % 10), Nat.digitChar (c % 10)]

/-- Number of characters after the first `'.'` of a string. -/
def fracDigits (s : String) : Nat := (s.data.dropWhile (fun c => c ≠ '.')).tail.length

/-- One CSV data line, as `csv.DictWriter` emits it for a row of this script
(no field contains a delimiter or quote, so minimal quoting writes the bare
fields joined by commas). -/
def rowToLine (r : Record) : String :=
  String.intercalate ","
    [key r.id, r.product_name, r.category, priceStr r.price, r.last_update_date.toISO]

/-- The header line written by `writer.writeheader()`. -/
def headerLine : String := String.intercalate "," field_names

/-- The lines of one output CSV file: header first, then one line per record
in order (`writeheader` followed by `writerows`). -/
def csvLines (rows : List Record) : List String := headerLine :: rows.map rowToLine

/-! ### Date windows -/

/-- The date window of one `generate_date(baseYear, (m1, m2))` call site:
`year ∈ {baseYear, baseYear + 1}` (the `randint(0,1)` spill into the next
year), month in the configured range, day in the default `(1, 28)` range. -/
def inWindow (baseYear m1 m2 : Nat) (d : Date) : Prop :=
  (d.year = baseYear ∨ d.year = baseYear + 1) ∧
  m1 ≤ d.month ∧ d.month ≤ m2 ∧ 1 ≤ d.day ∧ d.day ≤ 28

/-! ### Concrete choice assignments (used to instantiate the hypotheses) -/

/-- A concrete generation-1 draw assignment: every index draw 0, every
uniform draw 5, every date draw the lowest value of its range. -/
def c10 : Gen1C :=
  { nameC := fun _ => 0, catC := fun _ => 0, priceU := fun _ => 5
    dateDY := fun _ => 0, dateM := fun _ => 1, dateD := fun _ => 1 }

/-- The id sample of the concrete generation-2 assignment: the first
40000 ids. -/
def keep2base : List Nat := List.range 40000

/-- A concrete generation-2 draw assignment: the sample keeps the first
40000 ids, no price/category flips, identity shuffle. -/
def c20 : Gen2C :=
  { ids_to_keep_modify := keep2base
    dDY := fun _ => 0, dM := fun _ => 1, dD := fun _ => 1
    pFlip := fun _ => false, pFac := fun _ => 1
    cFlip := fun _ => false, cNew := fun _ => 0
    nName := fun _ => 0, nCat := fun _ => 0, nPriceU := fun _ => 5
    nDY := fun _ => 0, nM := fun _ => 7, nD := fun _ => 1
    shuffle := id }

/-- Generation-1 draws whose dates spill into 2024 (`randint(0,1) = 1`)
and land on March 15. -/
def c1w : Gen1C := { c10 with dateDY := fun _ => 1, dateM := fun _ => 3, dateD := fun _ => 15 }

/-- Generation-2 draws whose retained-record dates stay in the base year
2024 and land on March 15. -/
def c2w : Gen2C := { c20 with dDY := fun _ => 0, dM := fun _ => 3, dD := fun _ => 15 }

/-- A concrete generation-3 sample: the 40000 surviving original ids plus
5000 of the ids inserted at generation 2. -/
def keep3base : List Nat := List.range 40000 ++ (List.range 5000).map (fun i => 50000 + i)

/-- A concrete generation-3 draw assignment. -/
def c30 : Gen3C :=
  { ids_to_keep_modify_f3 := keep3base
    dDY := fun _ => 0, dM := fun _ => 1, dD := fun _ => 1
    pFlip := fun _ => false, pFac := fun _ => 1
    nName := fun _ => 0, nCat := fun _ => 0, nPriceU := fun _ => 5
    nDY := fun _ => 0, nM := fun _ => 2, nD := fun _ => 1
    shuffle := id }

/-! ### Lemmas about decimal digits and `key` -/

theorem digitsAux_acc : ∀ (fuel n : Nat) (acc : List Char),
    digitsAux fuel n acc = digitsAux fuel n [] ++ acc
  | 0, _, _ => rfl
  | fuel + 1, n, acc => by
    unfold digitsAux
    by_cases h : n < 10
    · simp [h]
    · simp only [h, if_false]
      rw [digitsAux_acc fuel (n / 10) (Nat.digitChar (n % 10) :: acc),
          digitsAux_acc fuel (n / 10) [Nat.digitChar (n % 10)]]
      simp

theorem mem_digitsAux : ∀ (fuel n : Nat) (acc : List Char) (c : Char),
    c ∈ digitsAux fuel n acc → c ∈ acc ∨ ∃ k, k < 10 ∧ c = Nat.digitChar k
  | 0, _, _, _, h => Or.inl h
  | fuel + 1, n, acc, c, h => by
    unfold digitsAux at h
    by_cases hn : n < 10
    · simp only [hn, if_true, List.mem_cons] at h
      rcases h with h | h
      · exact Or.inr ⟨n, hn, h⟩
      · exact Or.inl h
    · simp only [hn, if_false] at h
      rcases mem_digitsAux fuel (n / 10) _ c h with h | h
      · rcases List.mem_cons.mp h with h | h
        · exact Or.inr ⟨n % 10, Nat.mod_lt _ (by omega), h⟩
        · exact Or.inl h
      · exact Or.inr h

theorem digitChar_ne_dot : ∀ k, k < 10 → Nat.digitChar k ≠ '.' := by decide

theorem digitsOf_ne_dot {n : Nat} {c : Char} (hc : c ∈ digitsOf n) : c ≠ '.' := by
  rcases mem_digitsAux (n + 1) n [] c hc with h | ⟨k, hk, rfl⟩
  · simp at h
  · exact digitChar_ne_dot k hk

theorem digitVal_digitChar : ∀ k, k < 10 → digitVal (Nat.digitChar k) = k := by decide

theorem valOfDigits_append_singleton (l : List Char) (c : Char) :
    valOfDigits (l ++ [c]) = 10 * valOfDigits l + digitVal c := by
  simp [valOfDigits, List.foldl_append]

theorem valOfDigits_digitsAux : ∀ (fuel n : Nat), n < 10 ^ fuel →
    valOfDigits (digitsAux fuel n []) = n
  | 0, n, h => by
    have : n = 0 := by simpa using h
    simp [this, digitsAux, valOfDigits]
  | fuel + 1, n, h => by
    unfold digitsAux
    by_cases hn : n < 10
    · simp [hn, valOfDigits, digitVal_digitChar n hn]
    · simp only [hn, if_false]
      rw [digitsAux_acc, valOfDigits_append_singleton]
      have hdiv : n / 10 < 10 ^ fuel := by
        rw [Nat.div_lt_iff_lt_mul (by norm_num)]
        calc n < 10 ^ (fuel + 1) := h
          _ = 10 ^ fuel * 10 := by ring
      rw [valOfDigits_digitsAux fuel (n / 10) hdiv,
          digitVal_digitChar (n % 10) (Nat.mod_lt _ (by omega))]
      omega

theorem valOfDigits_digitsOf (n : Nat) : valOfDigits (digitsOf n) = n := by
  apply valOfDigits_digitsAux
  calc n < 10 ^ n := Nat.lt_pow_self (by norm_num) n
    _ ≤ 10 ^ (n + 1) := Nat.pow_le_pow_right (by norm_num) (Nat.le_succ n)

theorem foldl_replicate_zero : ∀ k : Nat,
    List.foldl (fun a c => 10 * a + digitVal c) 0 (List.replicate k '0') = 0
  | 0 => rfl
  | k + 1 => by
    rw [List.replicate_succ, List.foldl_cons]
    have : (10 * 0 + digitVal '0') = 0 := by decide
    rw [this]
    exact foldl_replicate_zero k

theorem valOfDigits_replicate_append (k : Nat) (l : List Char) :
    valOfDigits (List.replicate k '0' ++ l) = valOfDigits l := by
  simp only [valOfDigits, List.foldl_append, foldl_replicate_zero]

theorem key_injective : Function.Injective key := by
  intro m n h
  have hdata : "key_".data ++ (padNum 5 m).data = "key_".data ++ (padNum 5 n).data := by
    simpa [key, String.data_append] using congrArg String.data h
  have hpad : (padNum 5 m).data = (padNum 5 n).data := List.append_cancel_left hdata
  have hv := congrArg valOfDigits hpad
  simpa [padNum, valOfDigits_replicate_append, valOfDigits_digitsOf] using hv

/-! ### Lemmas about `round2` -/

theorem round2_mono {a b : ℚ} (h : a ≤ b) : round2 a ≤ round2 b := by
  unfold round2
  have h1 : round (a * 100) ≤ round (b * 100) := by
    rw [round_eq, round_eq]
    exact Int.floor_mono (by linarith)
  have h2 : ((round (a * 100) : ℤ) : ℚ) ≤ ((round (b * 100) : ℤ) : ℚ) := by exact_mod_cast h1
  linarith

theorem round2_intDiv (k : ℤ) : round2 ((k : ℚ) / 100) = (k : ℚ) / 100 := by
  unfold round2
  rw [div_mul_cancel₀ _ (by norm_num : (100 : ℚ) ≠ 0), round_intCast]

theorem round2_ge_const (k : ℤ) (q : ℚ) (h : (k : ℚ) / 100 ≤ q) : (k : ℚ) / 100 ≤ round2 q := by
  calc (k : ℚ) / 100 = round2 ((k : ℚ) / 100) := (round2_intDiv k).symm
    _ ≤ round2 q := round2_mono h

/-! ### The sampling constants evaluated -/

theorem keep2Count_eq : keep2Count = 40000 := by
  unfold keep2Count RECORDS
  norm_num

theorem new2Count_eq : new2Count = 10000 := by
  unfold new2Count RECORDS
  norm_num

theorem new3Count_eq : new3Count = 5000 := by
  unfold new3Count RECORDS
  norm_num

/-! ### `lookupRow` -/

theorem lookupRow_spec {rows : List Record} {b : Nat} (h : b ∈ rows.map Record.id) :
    lookupRow rows b ∈ rows ∧ (lookupRow rows b).id = b := by
  unfold lookupRow
  obtain ⟨r, hr, hid⟩ := List.mem_map.mp h
  have hsome : (rows.find? (fun r => r.id == b)).isSome := by
    rw [List.find?_isSome]
    exact ⟨r, hr, by simp [hid]⟩
  obtain ⟨a, ha⟩ := Option.isSome_iff_exists.mp hsome
  rw [ha]
  refine ⟨by simpa using List.mem_of_find?_eq_some ha, ?_⟩
  have := List.find?_some ha
  simpa using this

/-! ### Field behaviour of the modification loops -/

theorem modifyRecord2_id (c : Gen2C) (r : Record) : (modifyRecord2 c r).id = r.id := by
  unfold modifyRecord2
  split_ifs <;> rfl

theorem modifyRecord2_name (c : Gen2C) (r : Record) :
    (modifyRecord2 c r).product_name = r.product_name := by
  unfold modifyRecord2
  split_ifs <;> rfl

theorem modifyRecord2_price (c : Gen2C) (r : Record) :
    (modifyRecord2 c r).price = r.price ∨
    (modifyRecord2 c r).price = round2 (r.price * c.pFac r.id) := by
  unfold modifyRecord2
  split_ifs <;> simp

theorem modifyRecord2_date (c : Gen2C) (r : Record) :
    (modifyRecord2 c r).last_update_date
      = generate_date 2024 (c.dDY r.id) (c.dM r.id) (c.dD r.id) := by
  unfold modifyRecord2
  split_ifs <;> rfl

theorem modifyRecord3_id (c : Gen3C) (r : Record) : (modifyRecord3 c r).id = r.id := by
  unfold modifyRecord3
  dsimp only
  split_ifs <;> rfl

theorem modifyRecord3_name (c : Gen3C) (r : Record) :
    (modifyRecord3 c r).product_name = r.product_name := by
  unfold modifyRecord3
  dsimp only
  split_ifs <;> rfl

theorem modifyRecord3_price (c : Gen3C) (r : Record) :
    (modifyRecord3 c r).price = r.price ∨
    (modifyRecord3 c r).price = round2 (r.price * c.pFac r.id) := by
  unfold modifyRecord3
  dsimp only
  split_ifs <;> simp

theorem modifyRecord3_date (c : Gen3C) (r : Record) :
    (modifyRecord3 c r).last_update_date
      = generate_date 2025 (c.dDY r.id) (c.dM r.id) (c.dD r.id) := by
  unfold modifyRecord3
  dsimp only
  split_ifs <;> rfl

/-! ### The id lists of the three snapshots -/

theorem ids_file1 (c : Gen1C) : (file1_data c).map Record.id = List.range RECORDS := by
  unfold file1_data
  rw [List.map_map]
  have h : Record.id ∘ mkRecord1 c = fun i => i := by funext i; rfl
  rw [h]
  exact List.map_id' _

theorem mem_ids_file1 {c : Gen1C} {a : Nat} :
    a ∈ (file1_data c).map Record.id ↔ a < RECORDS := by
  rw [ids_file1]
  exact List.mem_range

theorem mem_add_range {k n a : Nat} :
    a ∈ (List.range n).map (fun i => k + i) ↔ k ≤ a ∧ a < k + n := by
  simp only [List.mem_map, List.mem_range]
  constructor
  · rintro ⟨i, hi, rfl⟩
    omega
  · intro h
    exact ⟨a - k, by omega, by omega⟩

theorem addLeft_inj (k : Nat) : Function.Injective (fun i : Nat => k + i) :=
  fun _ _ h => Nat.add_left_cancel h

theorem ids_file2_retained {c1 : Gen1C} {c : Gen2C} (h : Gen2Valid c1 c) :
    (file2_retained c1 c).map Record.id = c.ids_to_keep_modify := by
  unfold file2_retained
  rw [List.map_map]
  have hcong : ∀ b ∈ c.ids_to_keep_modify,
      (Record.id ∘ fun base_id => modifyRecord2 c (lookupRow (file1_data c1) base_id)) b = b := by
    intro b hb
    have hmem := h.2.1 b hb
    simp only [Function.comp_apply, modifyRecord2_id]
    exact (lookupRow_spec hmem).2
  rw [List.map_congr_left hcong]
  exact List.map_id' _

theorem ids_file2_new (c : Gen2C) :
    (file2_new c).map Record.id = (List.range new2Count).map (fun i => RECORDS + i) := by
  unfold file2_new
  rw [List.map_map]
  rfl

theorem ids_file2_perm {c1 : Gen1C} {c : Gen2C} (h : Gen2Valid c1 c) :
    ((file2_data c1 c).map Record.id).Perm
      (c.ids_to_keep_modify ++ (List.range new2Count).map (fun i => RECORDS + i)) := by
  unfold file2_data
  have hperm := (h.2.2.2.2 (file2_retained c1 c ++ file2_new c)).map Record.id
  rw [List.map_append, ids_file2_retained h, ids_file2_new] at hperm
  exact hperm

theorem mem_ids_file2 {c1 : Gen1C} {c : Gen2C} (h : Gen2Valid c1 c) {a : Nat} :
    a ∈ (file2_data c1 c).map Record.id ↔
      (a ∈ c.ids_to_keep_modify ∨ (RECORDS ≤ a ∧ a < RECORDS + new2Count)) := by
  rw [(ids_file2_perm h).mem_iff, List.mem_append, mem_add_range]

theorem ids_file2_lt {c1 : Gen1C} {c : Gen2C} (h : Gen2Valid c1 c) {a : Nat}
    (ha : a ∈ (file2_data c1 c).map Record.id) : a < RECORDS + new2Count := by
  rcases (mem_ids_file2 h).mp ha with hk | hnew
  · have := mem_ids_file1.mp (h.2.1 a hk)
    omega
  · omega

theorem nodup_ids_file2 {c1 : Gen1C} {c : Gen2C} (h : Gen2Valid c1 c) :
    ((file2_data c1 c).map Record.id).Nodup := by
  rw [(ids_file2_perm h).nodup_iff]
  refine List.Nodup.append h.1 ((List.nodup_range _).map (addLeft_inj _)) ?_
  rw [List.disjoint_left]
  intro a hak hanew
  have h1 : a < RECORDS := mem_ids_file1.mp (h.2.1 a hak)
  have h2 : RECORDS ≤ a := (mem_add_range.mp hanew).1
  omega

theorem ids_file3_retained {c1 : Gen1C} {c2 : Gen2C} {c : Gen3C} (h : Gen3Valid c1 c2 c) :
    (file3_retained c1 c2 c).map Record.id = c.ids_to_keep_modify_f3 := by
  unfold file3_retained
  rw [List.map_map]
  have hcong : ∀ b ∈ c.ids_to_keep_modify_f3,
      (Record.id ∘ fun base_id => modifyRecord3 c (lookupRow (file2_data c1 c2) base_id)) b = b := by
    intro b hb
    have hmem := h.2.1 b hb
    simp only [Function.comp_apply, modifyRecord3_id]
    exact (lookupRow_spec hmem).2
  rw [List.map_congr_left hcong]
  exact List.map_id' _

theorem ids_file3_new (c : Gen3C) :
    (file3_new c).map Record.id
      = (List.range new3Count).map (fun i => RECORDS + new2Count + i) := by
  unfold file3_new
  rw [List.map_map]
  rfl

theorem ids_file3_perm {c1 : Gen1C} {c2 : Gen2C} {c : Gen3C} (h : Gen3Valid c1 c2 c) :
    ((file3_data c1 c2 c).map Record.id).Perm
      (c.ids_to_keep_modify_f3
        ++ (List.range new3Count).map (fun i => RECORDS + new2Count + i)) := by
  unfold file3_data
  have hperm := (h.2.2.2.2 (file3_retained c1 c2 c ++ file3_new c)).map Record.id
  rw [List.map_append, ids_file3_retained h, ids_file3_new] at hperm
  exact hperm

theorem mem_ids_file3 {c1 : Gen1C} {c2 : Gen2C} {c : Gen3C} (h : Gen3Valid c1 c2 c) {a : Nat} :
    a ∈ (file3_data c1 c2 c).map Record.id ↔
      (a ∈ c.ids_to_keep_modify_f3
        ∨ (RECORDS + new2Count ≤ a ∧ a < RECORDS + new2Count + new3Count)) := by
  rw [(ids_file3_perm h).mem_iff, List.mem_append, mem_add_range]

theorem nodup_ids_file3 {c1 : Gen1C} {c2 : Gen2C} {c : Gen3C}
    (h2 : Gen2Valid c1 c2) (h3 : Gen3Valid c1 c2 c) :
    ((file3_data c1 c2 c).map Record.id).Nodup := by
  rw [(ids_file3_perm h3).nodup_iff]
  refine List.Nodup.append h3.1 ((List.nodup_range _).map (addLeft_inj _)) ?_
  rw [List.disjoint_left]
  intro a hak hanew
  have h1 : a < RECORDS + new2Count := ids_file2_lt h2 (h3.2.1 a hak)
  have hge : RECORDS + new2Count ≤ a := (mem_add_range.mp hanew).1
  omega

theorem mem_idsOf {rows : List Record} {a : Nat} :
    a ∈ idsOf rows ↔ a ∈ rows.map Record.id := List.mem_dedup

theorem idsOf_file1 (c : Gen1C) : idsOf (file1_data c) = List.range RECORDS := by
  unfold idsOf
  rw [ids_file1]
  exact List.dedup_eq_self.mpr (List.nodup_range _)

theorem idsOf_file2_perm {c1 : Gen1C} {c : Gen2C} (h : Gen2Valid c1 c) :
    (idsOf (file2_data c1 c)).Perm
      (c.ids_to_keep_modify ++ (List.range new2Count).map (fun i => RECORDS + i)) := by
  unfold idsOf
  rw [List.dedup_eq_self.mpr (nodup_ids_file2 h)]
  exact ids_file2_perm h

theorem idsOf_file2_length {c1 : Gen1C} {c : Gen2C} (h : Gen2Valid c1 c) :
    (idsOf (file2_data c1 c)).length = RECORDS := by
  rw [(idsOf_file2_perm h).length_eq, List.length_append, List.length_map,
      List.length_range, h.2.2.1, keep2Count_eq, new2Count_eq]
  rfl

theorem idsOf_file3_perm {c1 : Gen1C} {c2 : Gen2C} {c : Gen3C}
    (h2 : Gen2Valid c1 c2) (h3 : Gen3Valid c1 c2 c) :
    (idsOf (file3_data c1 c2 c)).Perm
      (c.ids_to_keep_modify_f3
        ++ (List.range new3Count).map (fun i => RECORDS + new2Count + i)) := by
  unfold idsOf
  rw [List.dedup_eq_self.mpr (nodup_ids_file3 h2 h3)]
  exact ids_file3_perm h3

/-! ### Date lemmas -/

theorem generate_date_eq {b dy month day : Nat} (hd : day ≤ 28) :
    generate_date b dy month day = ⟨b + dy, month, day⟩ := by
  unfold generate_date
  have h1 : ¬(month = 2 ∧ 28 < day) := by omega
  have h2 : ¬((month = 4 ∨ month = 6 ∨ month = 9 ∨ month = 11) ∧ 30 < day) := by omega
  simp [h1, h2]

theorem daysInMonth_ge (y m : Nat) : 28 ≤ daysInMonth y m := by
  unfold daysInMonth
  split_ifs <;> omega

theorem validDate_generate_date {b dy month day : Nat}
    (hm1 : 1 ≤ month) (hm2 : month ≤ 12) (hd1 : 1 ≤ day) (hd2 : day ≤ 28) :
    ValidDate (generate_date b dy month day) := by
  rw [generate_date_eq hd2]
  exact ⟨hm1, hm2, hd1, le_trans hd2 (daysInMonth_ge _ _)⟩

theorem generate_date_inWindow {b dy month day m1 m2 : Nat}
    (hdy : dy ≤ 1) (hm1 : m1 ≤ month) (hm2 : month ≤ m2) (hd1 : 1 ≤ day) (hd2 : day ≤ 28) :
    inWindow b m1 m2 (generate_date b dy month day) := by
  rw [generate_date_eq hd2]
  refine ⟨?_, hm1, hm2, hd1, hd2⟩
  show b + dy = b ∨ b + dy = b + 1
  omega

/-! ### Price bounds -/

theorem price_file1_ge {c : Gen1C} (h : Gen1Valid c) {r : Record}
    (hr : r ∈ file1_data c) : 5 ≤ r.price := by
  obtain ⟨i, _, rfl⟩ := List.mem_map.mp hr
  have hu := ((h i).2.2.1).1
  have h5 : ((500 : ℤ) : ℚ) / 100 = 5 := by norm_num
  have := round2_ge_const 500 (c.priceU i) (by rw [h5]; exact hu)
  rw [h5] at this
  simpa [mkRecord1, generate_price] using this

theorem price_retained2_ge {c1 : Gen1C} {c : Gen2C}
    (h1 : Gen1Valid c1) (h2 : Gen2Valid c1 c) {r : Record}
    (hr : r ∈ file2_retained c1 c) : 4 ≤ r.price := by
  obtain ⟨b, hb, rfl⟩ := List.mem_map.mp hr
  have hbmem := h2.2.1 b hb
  have hlook := lookupRow_spec hbmem
  set r0 := lookupRow (file1_data c1) b with hr0
  have hp0 : 5 ≤ r0.price := price_file1_ge h1 hlook.1
  have hfac := ((h2.2.2.2.1 r0.id).2.2.2.1)
  rcases modifyRecord2_price c r0 with hp | hp
  · rw [hp]; linarith
  · rw [hp]
    have h4 : ((400 : ℤ) : ℚ) / 100 = 4 := by norm_num
    have hmul : (4 : ℚ) ≤ r0.price * c.pFac r0.id := by nlinarith [hfac.1, hfac.2]
    have := round2_ge_const 400 (r0.price * c.pFac r0.id) (by rw [h4]; exact hmul)
    rw [h4] at this
    exact this

theorem price_file2_ge {c1 : Gen1C} {c : Gen2C}
    (h1 : Gen1Valid c1) (h2 : Gen2Valid c1 c) {r : Record}
    (hr : r ∈ file2_data c1 c) : 4 ≤ r.price := by
  have hmem : r ∈ file2_retained c1 c ++ file2_new c :=
    (h2.2.2.2.2 (file2_retained c1 c ++ file2_new c)).mem_iff.mp hr
  rcases List.mem_append.mp hmem with hret | hnew
  · exact price_retained2_ge h1 h2 hret
  · obtain ⟨i, _, rfl⟩ := List.mem_map.mp hnew
    have hu := (h2.2.2.2.1 i).2.2.2.2.2.2.2.1
    have h5 : ((500 : ℤ) : ℚ) / 100 = 5 := by norm_num
    have := round2_ge_const 500 (c.nPriceU i) (by rw [h5]; exact hu.1)
    rw [h5] at this
    have : (5 : ℚ) ≤ (mkNew2 c i).price := by simpa [mkNew2, generate_price] using this
    linarith

theorem price_file3_ge {c1 : Gen1C} {c2 : Gen2C} {c : Gen3C}
    (h1 : Gen1Valid c1) (h2 : Gen2Valid c1 c2) (h3 : Gen3Valid c1 c2 c) {r : Record}
    (hr : r ∈ file3_data c1 c2 c) : 18/5 ≤ r.price := by
  have hmem : r ∈ file3_retained c1 c2 c ++ file3_new c :=
    (h3.2.2.2.2 (file3_retained c1 c2 c ++ file3_new c)).mem_iff.mp hr
  rcases List.mem_append.mp hmem with hret | hnew
  · obtain ⟨b, hb, rfl⟩ := List.mem_map.mp hret
    have hbmem := h3.2.1 b hb
    have hlook := lookupRow_spec hbmem
    set r0 := lookupRow (file2_data c1 c2) b with hr0
    have hp0 : 4 ≤ r0.price := price_file2_ge h1 h2 hlook.1
    have hfac := ((h3.2.2.2.1 r0.id).2.2.2.1)
    rcases modifyRecord3_price c r0 with hp | hp
    · rw [hp]; linarith
    · rw [hp]
      have h36 : ((360 : ℤ) : ℚ) / 100 = 18/5 := by norm_num
      have hmul : (18/5 : ℚ) ≤ r0.price * c.pFac r0.id := by nlinarith [hfac.1, hfac.2]
      have := round2_ge_const 360 (r0.price * c.pFac r0.id) (by rw [h36]; exact hmul)
      rw [h36] at this
      exact this
  · obtain ⟨i, _, rfl⟩ := List.mem_map.mp hnew
    have hu := (h3.2.2.2.1 i).2.2.2.2.2.2.1
    have h5 : ((500 : ℤ) : ℚ) / 100 = 5 := by norm_num
    have := round2_ge_const 500 (c.nPriceU i) (by rw [h5]; exact hu.1)
    rw [h5] at this
    have : (5 : ℚ) ≤ (mkNew3 c i).price := by simpa [mkNew3, generate_price] using this
    linarith

/-! ### Fraction digits of the serialized price -/

theorem dropWhile_digits_dot : ∀ (l rest : List Char), (∀ c ∈ l, c ≠ '.') →
    (l ++ '.' :: rest).dropWhile (fun c => c ≠ '.') = '.' :: rest
  | [], rest, _ => by simp
  | c :: l, rest, h => by
    have hc : c ≠ '.' := h c (List.mem_cons_self c l)
    simp only [List.cons_append, List.dropWhile_cons]
    rw [if_pos (by simpa using hc)]
    exact dropWhile_digits_dot l rest (fun x hx => h x (List.mem_cons_of_mem c hx))

theorem fracDigits_of_data (s : String) (l rest : List Char)
    (hs : s.data = l ++ '.' :: rest) (hl : ∀ c ∈ l, c ≠ '.') :
    fracDigits s = rest.length := by
  unfold fracDigits
  rw [hs, dropWhile_digits_dot l rest hl]
  simp

theorem fracDigits_priceStr (q : ℚ) :
    fracDigits (priceStr q) = 1 ∨ fracDigits (priceStr q) = 2 := by
  unfold priceStr
  dsimp only
  set c := (⌊q * 100⌋).toNat with hc
  have hdig : ∀ ch ∈ digitsOf (c / 100), ch ≠ '.' := fun ch hch => digitsOf_ne_dot hch
  split_ifs with h1 h2
  · left
    refine fracDigits_of_data _ (digitsOf (c / 100)) ['0'] ?_ hdig
    simp [String.data_append]
  · left
    refine fracDigits_of_data _ (digitsOf (c / 100)) [Nat.digitChar (c / 10 % 10)] ?_ hdig
    simp [String.data_append]
  · right
    refine fracDigits_of_data _ (digitsOf (c / 100))
      [Nat.digitChar (c / 10 % 10), Nat.digitChar (c % 10)] ?_ hdig
    simp [String.data_append]

/-! ### Counting deleted identifiers -/

theorem length_filter_not_mem {l s : List Nat} (hl : l.Nodup) (hs : s.Nodup)
    (hsub : ∀ a ∈ s, a ∈ l) :
    (l.filter (fun a => decide (a ∉ s))).length = l.length - s.length := by
  have hperm : (l.filter (fun a => decide (a ∈ s))).Perm s := by
    apply (List.perm_ext_iff_of_nodup (hl.filter _) hs).mpr
    intro a
    simp only [List.mem_filter, decide_eq_true_eq]
    exact ⟨fun h => h.2, fun h => ⟨hsub a h, h⟩⟩
  have hlen1 : (l.filter (fun a => decide (a ∈ s))).length = s.length := hperm.length_eq
  have hlen2 := (List.filter_append_perm (fun a => decide (a ∈ s)) l).length_eq
  rw [List.length_append] at hlen2
  have hnot : l.filter (fun a => !decide (a ∈ s)) = l.filter (fun a => decide (a ∉ s)) := by
    apply List.filter_congr
    intro a _
    simp
  rw [hnot] at hlen2
  omega

theorem absent_count_12 {c1 : Gen1C} {c2 : Gen2C} (h2 : Gen2Valid c1 c2) :
    ((idsOf (file1_data c1)).filter
        (fun a => decide (a ∉ idsOf (file2_data c1 c2)))).length
      = RECORDS - keep2Count := by
  rw [idsOf_file1]
  have hcong : ∀ a ∈ List.range RECORDS,
      decide (a ∉ idsOf (file2_data c1 c2)) = decide (a ∉ c2.ids_to_keep_modify) := by
    intro a ha
    have halt : a < RECORDS := List.mem_range.mp ha
    have hiff : a ∈ idsOf (file2_data c1 c2) ↔ a ∈ c2.ids_to_keep_modify := by
      rw [mem_idsOf, mem_ids_file2 h2]
      constructor
      · rintro (h | h)
        · exact h
        · omega
      · exact Or.inl
    simp [hiff]
  rw [List.filter_congr hcong,
      length_filter_not_mem (List.nodup_range RECORDS) h2.1
        (fun a ha => List.mem_range.mpr (mem_ids_file1.mp (h2.2.1 a ha))),
      List.length_range, h2.2.2.1]

theorem absent_count_23 {c1 : Gen1C} {c2 : Gen2C} {c3 : Gen3C}
    (h2 : Gen2Valid c1 c2) (h3 : Gen3Valid c1 c2 c3) :
    ((idsOf (file2_data c1 c2)).filter
        (fun a => decide (a ∉ idsOf (file3_data c1 c2 c3)))).length
      = (idsOf (file2_data c1 c2)).length - keep3Count (file2_data c1 c2) := by
  have hcong : ∀ a ∈ idsOf (file2_data c1 c2),
      decide (a ∉ idsOf (file3_data c1 c2 c3))
        = decide (a ∉ c3.ids_to_keep_modify_f3) := by
    intro a ha
    have halt : a < RECORDS + new2Count := ids_file2_lt h2 (mem_idsOf.mp ha)
    have hiff : a ∈ idsOf (file3_data c1 c2 c3) ↔ a ∈ c3.ids_to_keep_modify_f3 := by
      rw [mem_idsOf, mem_ids_file3 h3]
      constructor
      · rintro (h | h)
        · exact h
        · omega
      · exact Or.inl
    simp [hiff]
  have hnodup : (idsOf (file2_data c1 c2)).Nodup := List.nodup_dedup _
  rw [List.filter_congr hcong,
      length_filter_not_mem hnodup h3.1 (fun a ha => mem_idsOf.mpr (h3.2.1 a ha)),
      h3.2.2.1]

/-! ### Validity of the concrete choice assignments -/

theorem RECORDS_eq : RECORDS = 50000 := rfl

theorem gen1Valid_c10 : Gen1Valid c10 := by
  intro i
  refine ⟨?_, ?_, ⟨?_, ?_⟩, ?_, ⟨?_, ?_⟩, ⟨?_, ?_⟩⟩ <;> norm_num [c10]

theorem gen1Valid_c1w : Gen1Valid c1w := by
  intro i
  refine ⟨?_, ?_, ⟨?_, ?_⟩, ?_, ⟨?_, ?_⟩, ⟨?_, ?_⟩⟩ <;> norm_num [c1w, c10]

theorem c20_keep : c20.ids_to_keep_modify = keep2base := by
  simp only [c20]

theorem c2w_keep : c2w.ids_to_keep_modify = keep2base := by
  simp only [c2w, c20]

theorem c30_keep : c30.ids_to_keep_modify_f3 = keep3base := by
  simp only [c30]

theorem c20_shuffle_eq : c20.shuffle = id := by
  simp only [c20]

theorem c2w_shuffle_eq : c2w.shuffle = id := by
  simp only [c2w, c20]

theorem c30_shuffle_eq : c30.shuffle = id := by
  simp only [c30]

theorem keep2base_nodup : keep2base.Nodup := by
  unfold keep2base
  exact List.nodup_range _

theorem keep2base_length : keep2base.length = keep2Count := by
  unfold keep2base
  rw [List.length_range, keep2Count_eq]

theorem mem_keep2base {a : Nat} : a ∈ keep2base ↔ a < 40000 := by
  unfold keep2base
  exact List.mem_range

theorem gen2Valid_c20 (c1 : Gen1C) : Gen2Valid c1 c20 := by
  refine ⟨?_, ?_, ?_, ?_, ?_⟩
  · rw [c20_keep]
    exact keep2base_nodup
  · intro a ha
    rw [c20_keep] at ha
    have : a < 40000 := mem_keep2base.mp ha
    exact mem_ids_file1.mpr (by rw [RECORDS_eq]; omega)
  · rw [c20_keep]
    exact keep2base_length
  · intro i
    refine ⟨?_, ⟨?_, ?_⟩, ⟨?_, ?_⟩, ⟨?_, ?_⟩, ?_, ?_, ?_, ⟨?_, ?_⟩, ?_, ⟨?_, ?_⟩, ⟨?_, ?_⟩⟩ <;>
      norm_num [c20]
  · intro xs
    rw [c20_shuffle_eq]
    exact List.Perm.refl _

theorem gen2Valid_c2w (c1 : Gen1C) : Gen2Valid c1 c2w := by
  refine ⟨?_, ?_, ?_, ?_, ?_⟩
  · rw [c2w_keep]
    exact keep2base_nodup
  · intro a ha
    rw [c2w_keep] at ha
    have : a < 40000 := mem_keep2base.mp ha
    exact mem_ids_file1.mpr (by rw [RECORDS_eq]; omega)
  · rw [c2w_keep]
    exact keep2base_length
  · intro i
    refine ⟨?_, ⟨?_, ?_⟩, ⟨?_, ?_⟩, ⟨?_, ?_⟩, ?_, ?_, ?_, ⟨?_, ?_⟩, ?_, ⟨?_, ?_⟩, ⟨?_, ?_⟩⟩ <;>
      norm_num [c2w, c20]
  · intro xs
    rw [c2w_shuffle_eq]
    exact List.Perm.refl _

theorem keep3base_nodup : keep3base.Nodup := by
  unfold keep3base
  refine List.Nodup.append (List.nodup_range _)
    ((List.nodup_range _).map (addLeft_inj _)) ?_
  rw [List.disjoint_left]
  intro a ha hb
  have h1 : a < 40000 := List.mem_range.mp ha
  have h2 : 50000 ≤ a := (mem_add_range.mp hb).1
  omega

theorem keep3base_length : keep3base.length = 45000 := by
  unfold keep3base
  rw [List.length_append, List.length_range, List.length_map, List.length_range]

theorem gen3Valid_c30 : Gen3Valid c10 c20 c30 := by
  have h2 := gen2Valid_c20 c10
  refine ⟨?_, ?_, ?_, ?_, ?_⟩
  · rw [c30_keep]
    exact keep3base_nodup
  · intro a ha
    rw [c30_keep] at ha
    rw [mem_ids_file2 h2, c20_keep]
    unfold keep3base at ha
    rcases List.mem_append.mp ha with h | h
    · exact Or.inl h
    · obtain ⟨hge, hlt⟩ := mem_add_range.mp h
      rw [RECORDS_eq, new2Count_eq]
      exact Or.inr ⟨by omega, by omega⟩
  · rw [c30_keep, keep3base_length]
    unfold keep3Count
    rw [idsOf_file2_length h2, RECORDS_eq]
    norm_num
  · intro i
    refine ⟨?_, ⟨?_, ?_⟩, ⟨?_, ?_⟩, ⟨?_, ?_⟩, ?_, ?_, ⟨?_, ?_⟩, ?_, ⟨?_, ?_⟩, ⟨?_, ?_⟩⟩ <;>
      norm_num [c30]
  · intro xs
    rw [c30_shuffle_eq]
    exact List.Perm.refl _

theorem round2_five : round2 5 = 5 := by
  have h5 : ((500 : ℤ) : ℚ) / 100 = 5 := by norm_num
  have h := round2_intDiv 500
  rwa [h5] at h

theorem priceStr_five : priceStr 5 = "5.0" := by
  unfold priceStr
  dsimp only
  have h1 : (5 : ℚ) * 100 = ((500 : ℤ) : ℚ) := by norm_num
  rw [h1, Int.floor_intCast]
  decide

/-! ### The claims -/

/-- C1: within each generated snapshot the record identifiers are pairwise
distinct — no two rows emitted to the same output file share the same
serialized id value. -/
theorem claim_C1 (c1 : Gen1C) (c2 : Gen2C) (c3 : Gen3C)
    (h2 : Gen2Valid c1 c2) (h3 : Gen3Valid c1 c2 c3) :
    ((file1_data c1).map (fun r => key r.id)).Nodup ∧
    ((file2_data c1 c2).map (fun r => key r.id)).Nodup ∧
    ((file3_data c1 c2 c3).map (fun r => key r.id)).Nodup := by
  have hkey : ∀ l : List Record,
      (l.map Record.id).Nodup → (l.map (fun r => key r.id)).Nodup := by
    intro l h
    have hmap := h.map key_injective
    rwa [List.map_map] at hmap
  refine ⟨hkey _ ?_, hkey _ (nodup_ids_file2 h2), hkey _ (nodup_ids_file3 h2 h3)⟩
  rw [ids_file1]
  exact List.nodup_range _

/-- Witness for C1: the hypotheses hold at the concrete choice assignment. -/
theorem claim_C1_witness :
    ((file1_data c10).map (fun r => key r.id)).Nodup ∧
    ((file2_data c10 c20).map (fun r => key r.id)).Nodup ∧
    ((file3_data c10 c20 c30).map (fun r => key r.id)).Nodup :=
  claim_C1 c10 c20 c30 (gen2Valid_c20 c10) gen3Valid_c30

/-- C3: identifiers newly introduced at generation 2 do not occur in
generation 1, identifiers newly introduced at generation 3 occur in neither
earlier snapshot, and the newly allocated numeric ids are strictly
increasing across both insertion batches (monotonically allocated, never
reused). -/
theorem claim_C3 (c1 : Gen1C) (c2 : Gen2C) (c3 : Gen3C) (h2 : Gen2Valid c1 c2) :
    (∀ a ∈ (file2_new c2).map Record.id, a ∉ (file1_data c1).map Record.id) ∧
    (∀ a ∈ (file3_new c3).map Record.id,
        a ∉ (file1_data c1).map Record.id ∧ a ∉ (file2_data c1 c2).map Record.id) ∧
    List.Pairwise (· < ·)
      ((file2_new c2).map Record.id ++ (file3_new c3).map Record.id) := by
  refine ⟨?_, ?_, ?_⟩
  · intro a ha
    rw [ids_file2_new] at ha
    obtain ⟨hge, _⟩ := mem_add_range.mp ha
    rw [mem_ids_file1]
    omega
  · intro a ha
    rw [ids_file3_new] at ha
    obtain ⟨hge, _⟩ := mem_add_range.mp ha
    constructor
    · rw [mem_ids_file1]
      omega
    · intro hmem
      have := ids_file2_lt h2 hmem
      omega
  · rw [ids_file2_new, ids_file3_new, List.pairwise_append]
    refine ⟨?_, ?_, ?_⟩
    · exact List.Pairwise.map _ (fun a b h => Nat.add_lt_add_left h _)
        (List.pairwise_lt_range _)
    · exact List.Pairwise.map _ (fun a b h => Nat.add_lt_add_left h _)
        (List.pairwise_lt_range _)
    · intro a ha b hb
      obtain ⟨_, ha2⟩ := mem_add_range.mp ha
      obtain ⟨hb1, _⟩ := mem_add_range.mp hb
      omega

/-- Witness for C3 at the concrete choice assignment. -/
theorem claim_C3_witness :
    (∀ a ∈ (file2_new c20).map Record.id, a ∉ (file1_data c10).map Record.id) ∧
    (∀ a ∈ (file3_new c30).map Record.id,
        a ∉ (file1_data c10).map Record.id ∧ a ∉ (file2_data c10 c20).map Record.id) ∧
    List.Pairwise (· < ·)
      ((file2_new c20).map Record.id ++ (file3_new c30).map Record.id) :=
  claim_C3 c10 c20 c30 (gen2Valid_c20 c10)

/-- C5: every price in every snapshot is strictly positive, for all
outcomes of the random draws (in particular for every outcome of the
price-modification factors). -/
theorem claim_C5 (c1 : Gen1C) (c2 : Gen2C) (c3 : Gen3C)
    (h1 : Gen1Valid c1) (h2 : Gen2Valid c1 c2) (h3 : Gen3Valid c1 c2 c3) :
    (∀ r ∈ file1_data c1, 0 < r.price) ∧
    (∀ r ∈ file2_data c1 c2, 0 < r.price) ∧
    (∀ r ∈ file3_data c1 c2 c3, 0 < r.price) :=
  ⟨fun _ hr => lt_of_lt_of_le (by norm_num) (price_file1_ge h1 hr),
   fun _ hr => lt_of_lt_of_le (by norm_num) (price_file2_ge h1 h2 hr),
   fun _ hr => lt_of_lt_of_le (by norm_num) (price_file3_ge h1 h2 h3 hr)⟩

/-- Witness for C5 at the concrete choice assignment. -/
theorem claim_C5_witness :
    (∀ r ∈ file1_data c10, 0 < r.price) ∧
    (∀ r ∈ file2_data c10 c20, 0 < r.price) ∧
    (∀ r ∈ file3_data c10 c20 c30, 0 < r.price) :=
  claim_C5 c10 c20 c30 gen1Valid_c10 (gen2Valid_c20 c10) gen3Valid_c30

/-- C9 (frame property): every record retained from the prior snapshot
keeps the prior record's id and product name unchanged — only price,
category, and last-update date may differ. -/
theorem claim_C9 (c1 : Gen1C) (c2 : Gen2C) (c3 : Gen3C)
    (h2 : Gen2Valid c1 c2) (h3 : Gen3Valid c1 c2 c3) :
    (∀ s ∈ file2_retained c1 c2, ∃ r ∈ file1_data c1,
        s.id = r.id ∧ s.product_name = r.product_name) ∧
    (∀ s ∈ file3_retained c1 c2 c3, ∃ r ∈ file2_data c1 c2,
        s.id = r.id ∧ s.product_name = r.product_name) := by
  constructor
  · intro s hs
    obtain ⟨b, hb, rfl⟩ := List.mem_map.mp hs
    have hlook := lookupRow_spec (h2.2.1 b hb)
    exact ⟨lookupRow (file1_data c1) b, hlook.1, modifyRecord2_id _ _, modifyRecord2_name _ _⟩
  · intro s hs
    obtain ⟨b, hb, rfl⟩ := List.mem_map.mp hs
    have hlook := lookupRow_spec (h3.2.1 b hb)
    exact ⟨lookupRow (file2_data c1 c2) b, hlook.1, modifyRecord3_id _ _, modifyRecord3_name _ _⟩

/-- Witness for C9 at the concrete choice assignment. -/
theorem claim_C9_witness :
    (∀ s ∈ file2_retained c10 c20, ∃ r ∈ file1_data c10,
        s.id = r.id ∧ s.product_name = r.product_name) ∧
    (∀ s ∈ file3_retained c10 c20 c30, ∃ r ∈ file2_data c10 c20,
        s.id = r.id ∧ s.product_name = r.product_name) :=
  claim_C9 c10 c20 c30 (gen2Valid_c20 c10) gen3Valid_c30

/-- C10: for every argument combination the script uses (any base year, a
month range inside `[1, 12]`, the default day range `(1, 28)`), the triple
`generate_date` passes to the date constructor is a valid calendar date —
the function is total and never raises; with the day draw at most 28 the
clamping branches do not even fire, so the drawn values are returned
unchanged. -/
theorem claim_C10 (base_year dy month day m1 m2 : Nat)
    (hdy : dy ≤ 1) (hm1 : 1 ≤ m1) (hm2 : m1 ≤ month) (hm3 : month ≤ m2) (hm4 : m2 ≤ 12)
    (hd1 : 1 ≤ day) (hd2 : day ≤ 28) :
    ValidDate (generate_date base_year dy month day) ∧
    generate_date base_year dy month day = ⟨base_year + dy, month, day⟩ :=
  ⟨validDate_generate_date (by omega) (by omega) hd1 hd2, generate_date_eq hd2⟩

/-- Witness for C10 at a concrete call (`generate_date(2023, (1,12))` with
all draws at the lower ends). -/
theorem claim_C10_witness :
    ValidDate (generate_date 2023 0 1 1) ∧ generate_date 2023 0 1 1 = ⟨2023 + 0, 1, 1⟩ :=
  claim_C10 2023 0 1 1 1 12 (by norm_num) (by norm_num) (by norm_num) (by norm_num)
    (by norm_num) (by norm_num) (by norm_num)

/-- C2, amended: every date assigned to a modified (retained) or newly
inserted record of generation N+1 lies in that generation's designated
window — but the windows are not strictly later than the previous
generation's window: each window spills into the following year
(`randint(0,1)` on the year), so consecutive windows overlap. -/
theorem claim_C2_amended (c1 : Gen1C) (c2 : Gen2C) (c3 : Gen3C)
    (h2 : Gen2Valid c1 c2) (h3 : Gen3Valid c1 c2 c3) :
    (∀ r ∈ file2_retained c1 c2, inWindow 2024 1 6 r.last_update_date) ∧
    (∀ r ∈ file2_new c2, inWindow 2024 7 12 r.last_update_date) ∧
    (∀ r ∈ file3_retained c1 c2 c3, inWindow 2025 1 3 r.last_update_date) ∧
    (∀ r ∈ file3_new c3, inWindow 2025 2 4 r.last_update_date) := by
  refine ⟨?_, ?_, ?_, ?_⟩
  · intro r hr
    obtain ⟨b, hb, rfl⟩ := List.mem_map.mp hr
    rw [modifyRecord2_date]
    obtain ⟨hdy, ⟨hm1, hm2⟩, ⟨hd1, hd2⟩, _⟩ := h2.2.2.2.1 (lookupRow (file1_data c1) b).id
    exact generate_date_inWindow hdy hm1 hm2 hd1 hd2
  · intro r hr
    obtain ⟨i, _, rfl⟩ := List.mem_map.mp hr
    obtain ⟨_, _, _, _, _, _, _, _, hnDY, ⟨hm1, hm2⟩, ⟨hd1, hd2⟩⟩ := h2.2.2.2.1 i
    exact generate_date_inWindow hnDY hm1 hm2 hd1 hd2
  · intro r hr
    obtain ⟨b, hb, rfl⟩ := List.mem_map.mp hr
    rw [modifyRecord3_date]
    obtain ⟨hdy, ⟨hm1, hm2⟩, ⟨hd1, hd2⟩, _⟩ := h3.2.2.2.1 (lookupRow (file2_data c1 c2) b).id
    exact generate_date_inWindow hdy hm1 hm2 hd1 hd2
  · intro r hr
    obtain ⟨i, _, rfl⟩ := List.mem_map.mp hr
    obtain ⟨_, _, _, _, _, _, _, hnDY, ⟨hm1, hm2⟩, ⟨hd1, hd2⟩⟩ := h3.2.2.2.1 i
    exact generate_date_inWindow hnDY hm1 hm2 hd1 hd2

/-- Witness for the amended C2 at the concrete choice assignment. -/
theorem claim_C2_amended_witness :
    (∀ r ∈ file2_retained c10 c20, inWindow 2024 1 6 r.last_update_date) ∧
    (∀ r ∈ file2_new c20, inWindow 2024 7 12 r.last_update_date) ∧
    (∀ r ∈ file3_retained c10 c20 c30, inWindow 2025 1 3 r.last_update_date) ∧
    (∀ r ∈ file3_new c30, inWindow 2025 2 4 r.last_update_date) :=
  claim_C2_amended c10 c20 c30 (gen2Valid_c20 c10) gen3Valid_c30

/-- Counterexample to C2 as stated: the windows of consecutive generations
overlap.  Under valid draws, a generation-1 record (window
`generate_date(2023, (1,12))`) and a generation-2 modified record (window
`generate_date(2024, (1,6))`) both carry the date 2024-03-15, so a date
emitted for generation 2's modified records is also produced by
generation 1's window. -/
theorem claim_C2_counterexample :
    Gen1Valid c1w ∧ Gen2Valid c1w c2w ∧
    ∃ r1 ∈ file1_data c1w, ∃ r2 ∈ file2_retained c1w c2w,
      r1.last_update_date = ⟨2024, 3, 15⟩ ∧ r2.last_update_date = ⟨2024, 3, 15⟩ := by
  refine ⟨gen1Valid_c1w, gen2Valid_c2w c1w,
    mkRecord1 c1w 0, ?_, modifyRecord2 c2w (lookupRow (file1_data c1w) 0), ?_, ?_, ?_⟩
  · exact List.mem_map.mpr ⟨0, List.mem_range.mpr (by rw [RECORDS_eq]; norm_num), rfl⟩
  · refine List.mem_map.mpr ⟨0, ?_, rfl⟩
    rw [c2w_keep]
    exact mem_keep2base.mpr (by norm_num)
  · show (mkRecord1 c1w 0).last_update_date = ⟨2024, 3, 15⟩
    simp only [mkRecord1, c1w, c10]
    decide
  · rw [modifyRecord2_date]
    simp only [c2w, c20]
    decide

/-- C4, amended: every emitted price is serialized with one or two fraction
digits — two in general, but Python's float `str` drops a trailing
fractional zero, so a price whose cent value is a multiple of 10 is
serialized with a single fraction digit (e.g. `5.0`, `8.2`), not exactly
two. -/
theorem claim_C4_amended (c1 : Gen1C) (c2 : Gen2C) (c3 : Gen3C) (r : Record)
    (hr : r ∈ file1_data c1 ∨ r ∈ file2_data c1 c2 ∨ r ∈ file3_data c1 c2 c3) :
    fracDigits (priceStr r.price) = 1 ∨ fracDigits (priceStr r.price) = 2 :=
  fracDigits_priceStr r.price

/-- Witness for the amended C4 at the concrete choice assignment. -/
theorem claim_C4_amended_witness :
    fracDigits (priceStr (mkRecord1 c10 0).price) = 1 ∨
    fracDigits (priceStr (mkRecord1 c10 0).price) = 2 :=
  claim_C4_amended c10 c20 c30 (mkRecord1 c10 0)
    (Or.inl (List.mem_map.mpr ⟨0, List.mem_range.mpr (by rw [RECORDS_eq]; norm_num), rfl⟩))

/-- Counterexample to C4 as stated: under valid draws (a uniform price draw
of exactly 5.0), generation 1 emits a record whose price serializes as
`"5.0"` — one fraction digit, not exactly two. -/
theorem claim_C4_counterexample :
    Gen1Valid c10 ∧
    ∃ r ∈ file1_data c10, priceStr r.price = "5.0" ∧ fracDigits (priceStr r.price) = 1 := by
  refine ⟨gen1Valid_c10, mkRecord1 c10 0, ?_, ?_, ?_⟩
  · exact List.mem_map.mpr ⟨0, List.mem_range.mpr (by rw [RECORDS_eq]; norm_num), rfl⟩
  · show priceStr (mkRecord1 c10 0).price = "5.0"
    simp only [mkRecord1, c10, generate_price]
    rw [round2_five]
    exact priceStr_five
  · show fracDigits (priceStr (mkRecord1 c10 0).price) = 1
    simp only [mkRecord1, c10, generate_price]
    rw [round2_five, priceStr_five]
    decide

/-- C6: the number of identifiers present in snapshot N but absent from
snapshot N+1 equals the configured deletion count of that transition:
`RECORDS - int(RECORDS * 0.8)` (= 10000) for generation 2, and
`len(ids_file2) - int(len(ids_file2) * 0.90)` (= 5000) for generation 3. -/
theorem claim_C6 (c1 : Gen1C) (c2 : Gen2C) (c3 : Gen3C)
    (h2 : Gen2Valid c1 c2) (h3 : Gen3Valid c1 c2 c3) :
    ((idsOf (file1_data c1)).filter
        (fun a => decide (a ∉ idsOf (file2_data c1 c2)))).length = RECORDS - keep2Count ∧
    RECORDS - keep2Count = 10000 ∧
    ((idsOf (file2_data c1 c2)).filter
        (fun a => decide (a ∉ idsOf (file3_data c1 c2 c3)))).length
      = (idsOf (file2_data c1 c2)).length - keep3Count (file2_data c1 c2) ∧
    (idsOf (file2_data c1 c2)).length - keep3Count (file2_data c1 c2) = 5000 := by
  refine ⟨absent_count_12 h2, ?_, absent_count_23 h2 h3, ?_⟩
  · rw [keep2Count_eq, RECORDS_eq]
  · have hlen := idsOf_file2_length h2
    unfold keep3Count
    rw [hlen, RECORDS_eq]
    norm_num

/-- Witness for C6 at the concrete choice assignment. -/
theorem claim_C6_witness :
    ((idsOf (file1_data c10)).filter
        (fun a => decide (a ∉ idsOf (file2_data c10 c20)))).length = RECORDS - keep2Count ∧
    RECORDS - keep2Count = 10000 ∧
    ((idsOf (file2_data c10 c20)).filter
        (fun a => decide (a ∉ idsOf (file3_data c10 c20 c30)))).length
      = (idsOf (file2_data c10 c20)).length - keep3Count (file2_data c10 c20) ∧
    (idsOf (file2_data c10 c20)).length - keep3Count (file2_data c10 c20) = 5000 :=
  claim_C6 c10 c20 c30 (gen2Valid_c20 c10) gen3Valid_c30

/-- C7: the number of brand-new records is exactly `int(RECORDS * 0.2)`
(= 10000) at generation 2 and `int(RECORDS * 0.1)` (= 5000) at generation
3, and generation 2's total record count is the retained count plus the
inserted count, which equals the base count `RECORDS`. -/
theorem claim_C7 (c1 : Gen1C) (c2 : Gen2C) (c3 : Gen3C) (h2 : Gen2Valid c1 c2) :
    (file2_new c2).length = new2Count ∧ new2Count = 10000 ∧
    (file3_new c3).length = new3Count ∧ new3Count = 5000 ∧
    (file2_data c1 c2).length = keep2Count + new2Count ∧
    keep2Count + new2Count = RECORDS := by
  refine ⟨?_, new2Count_eq, ?_, new3Count_eq, ?_, ?_⟩
  · unfold file2_new
    rw [List.length_map, List.length_range]
  · unfold file3_new
    rw [List.length_map, List.length_range]
  · unfold file2_data
    rw [(h2.2.2.2.2 _).length_eq, List.length_append]
    unfold file2_retained file2_new
    rw [List.length_map, List.length_map, List.length_range, h2.2.2.1]
  · rw [keep2Count_eq, new2Count_eq, RECORDS_eq]

/-- Witness for C7 at the concrete choice assignment. -/
theorem claim_C7_witness :
    (file2_new c20).length = new2Count ∧ new2Count = 10000 ∧
    (file3_new c30).length = new3Count ∧ new3Count = 5000 ∧
    (file2_data c10 c20).length = keep2Count + new2Count ∧
    keep2Count + new2Count = RECORDS :=
  claim_C7 c10 c20 c30 (gen2Valid_c20 c10)

/-- C8: each output file starts with the header line
`id,product_name,category,price,last_update_date` and has exactly one more
line than the snapshot has records. -/
theorem claim_C8 (c1 : Gen1C) (c2 : Gen2C) (c3 : Gen3C) :
    (csvLines (file1_data c1)).length = (file1_data c1).length + 1 ∧
    (csvLines (file2_data c1 c2)).length = (file2_data c1 c2).length + 1 ∧
    (csvLines (file3_data c1 c2 c3)).length = (file3_data c1 c2 c3).length + 1 ∧
    (csvLines (file1_data c1)).head? = some "id,product_name,category,price,last_update_date" ∧
    (csvLines (file2_data c1 c2)).head?
      = some "id,product_name,category,price,last_update_date" ∧
    (csvLines (file3_data c1 c2 c3)).head?
      = some "id,product_name,category,price,last_update_date" := by
  have hlen : ∀ rows : List Record, (csvLines rows).length = rows.length + 1 := by
    intro rows
    unfold csvLines
    rw [List.length_cons, List.length_map]
  have hhead : ∀ rows : List Record,
      (csvLines rows).head? = some "id,product_name,category,price,last_update_date" := by
    intro rows
    unfold csvLines
    rw [List.head?_cons]
    congr 1
  exact ⟨hlen _, hlen _, hlen _, hhead _, hhead _, hhead _⟩

end CsvGen
